import Mathlib

/-!
# Verification of the NEAR SDK promise builder

A shallow embedding of `near-sdk/src/promise.rs`: the `Promise` handle
(variant `Single`/`Joint` over an opaque host index plus a mutable
return flag), its action-append and composition operations, and the
`PromiseOrValue` result wrapper with its serialization and schema
behaviour.

The host scheduler (`crate::env`) is an external collaborator of this
core: its functions are modelled from the specification as a state
holding a fresh-index counter, the per-index action batches, and a log
of every request issued.  Mutation through `RefCell` in the source is
rendered as explicit state passing: each operation consumes the handle
and the host state and returns the updated pair.  The fatal
`panic_str` abort is rendered as `Except.error` carrying the panic
message.
-/

namespace NearPromise

/-- Opaque numeric identifier assigned by the host scheduler
(`PromiseIndex` in the source, a `u64` newtype that is only threaded
through, never computed with). -/
abbrev PromiseIndex := Nat

/-- Human-readable account identifier (`AccountId`); opaque here. -/
abbrev AccountId := String

/-- Token balance (`u128` in the source); only threaded through. -/
abbrev Balance := Nat

/-- Gas limit (`u64` newtype in the source); only threaded through. -/
abbrev Gas := Nat

/-- Public key bytes (`PublicKey` in the source); opaque here. -/
abbrev PublicKey := List Nat

/-- Modelled from the spec: the action descriptor recorded by the host
scheduler's `append-action` request, one constructor per action kind
with exactly the parameters the corresponding `env` host function
receives (spec §4.1 and §6). -/
inductive Action where
  | createAccount
  | deployContract (code : List Nat)
  | functionCall (function_name : String) (arguments : List Nat)
      (amount : Balance) (gas : Gas)
  | transfer (amount : Balance)
  | stake (amount : Balance) (public_key : PublicKey)
  | addKeyWithFullAccess (public_key : PublicKey) (nonce : Nat)
  | addKeyWithFunctionCall (public_key : PublicKey) (nonce : Nat)
      (allowance : Balance) (receiver_id : AccountId) (function_names : String)
  | deleteKey (public_key : PublicKey)
  | deleteAccount (beneficiary_id : AccountId)
  deriving DecidableEq, Repr

/-- Modelled from the spec: one request issued to the host scheduler,
with the identifier the host returned where the request allocates one
(spec §6: open-new-batch, append-action, join, chain). -/
inductive HostCall where
  | batchCreate (target : AccountId) (ret : PromiseIndex)
  | batchAction (idx : PromiseIndex) (a : Action)
  | promiseAnd (idxs : List PromiseIndex) (ret : PromiseIndex)
  | batchThen (idx : PromiseIndex) (target : AccountId) (ret : PromiseIndex)
  deriving DecidableEq, Repr

/-- Modelled from the spec: the host scheduler's state — a counter of
fresh handle identifiers, the ordered action batch attached to each
identifier, and the log of requests issued so far (spec §6).  Every
identifier the host has handed out is below `nextIndex`. -/
structure HostState where
  nextIndex : PromiseIndex
  batches : PromiseIndex → List Action
  log : List HostCall

namespace env

/-- Modelled from the spec: `open-new-batch(target identity) → handle id`
(`env::promise_batch_create`).  Allocates a fresh identifier with an
empty batch and logs the request. -/
def promise_batch_create (account_id : AccountId) (s : HostState) :
    PromiseIndex × HostState :=
  (s.nextIndex,
    { nextIndex := s.nextIndex + 1
      batches := fun j => if j = s.nextIndex then [] else s.batches j
      log := s.log ++ [HostCall.batchCreate account_id s.nextIndex] })

/-- Modelled from the spec: `append-action(handle id, action descriptor)`
(the shared behaviour of the `env::promise_batch_action_*` family).
Appends the descriptor to the identified batch and logs the request. -/
def hostAppendAction (i : PromiseIndex) (a : Action) (s : HostState) :
    HostState :=
  { nextIndex := s.nextIndex
    batches := fun j => if j = i then s.batches j ++ [a] else s.batches j
    log := s.log ++ [HostCall.batchAction i a] }

/-- Host function `env::promise_batch_action_create_account`. -/
def promise_batch_action_create_account (promise_index : PromiseIndex)
    (s : HostState) : HostState :=
  hostAppendAction promise_index Action.createAccount s

/-- Host function `env::promise_batch_action_deploy_contract`. -/
def promise_batch_action_deploy_contract (promise_index : PromiseIndex)
    (code : List Nat) (s : HostState) : HostState :=
  hostAppendAction promise_index (Action.deployContract code) s

/-- Host function `env::promise_batch_action_function_call`. -/
def promise_batch_action_function_call (promise_index : PromiseIndex)
    (function_name : String) (arguments : List Nat) (amount : Balance)
    (gas : Gas) (s : HostState) : HostState :=
  hostAppendAction promise_index
    (Action.functionCall function_name arguments amount gas) s

/-- Host function `env::promise_batch_action_transfer`. -/
def promise_batch_action_transfer (promise_index : PromiseIndex)
    (amount : Balance) (s : HostState) : HostState :=
  hostAppendAction promise_index (Action.transfer amount) s

/-- Host function `env::promise_batch_action_stake`. -/
def promise_batch_action_stake (promise_index : PromiseIndex)
    (amount : Balance) (public_key : PublicKey) (s : HostState) : HostState :=
  hostAppendAction promise_index (Action.stake amount public_key) s

/-- Host function `env::promise_batch_action_add_key_with_full_access`. -/
def promise_batch_action_add_key_with_full_access
    (promise_index : PromiseIndex) (public_key : PublicKey) (nonce : Nat)
    (s : HostState) : HostState :=
  hostAppendAction promise_index
    (Action.addKeyWithFullAccess public_key nonce) s

/-- Host function `env::promise_batch_action_add_key_with_function_call`. -/
def promise_batch_action_add_key_with_function_call
    (promise_index : PromiseIndex) (public_key : PublicKey) (nonce : Nat)
    (allowance : Balance) (receiver_id : AccountId)
    (function_names : String) (s : HostState) : HostState :=
  hostAppendAction promise_index
    (Action.addKeyWithFunctionCall public_key nonce allowance receiver_id
      function_names) s

/-- Host function `env::promise_batch_action_delete_key`. -/
def promise_batch_action_delete_key (promise_index : PromiseIndex)
    (public_key : PublicKey) (s : HostState) : HostState :=
  hostAppendAction promise_index (Action.deleteKey public_key) s

/-- Host function `env::promise_batch_action_delete_account`. -/
def promise_batch_action_delete_account (promise_index : PromiseIndex)
    (beneficiary_id : AccountId) (s : HostState) : HostState :=
  hostAppendAction promise_index (Action.deleteAccount beneficiary_id) s

/-- Modelled from the spec: `join(handle id, handle id) → new handle id`
(`env::promise_and`).  Allocates a fresh identifier for the join node
(no batch of its own) and logs the request. -/
def promise_and (idxs : List PromiseIndex) (s : HostState) :
    PromiseIndex × HostState :=
  (s.nextIndex,
    { nextIndex := s.nextIndex + 1
      batches := fun j => if j = s.nextIndex then [] else s.batches j
      log := s.log ++ [HostCall.promiseAnd idxs s.nextIndex] })

/-- Modelled from the spec: `chain(handle id, target identity) → new
handle id` (`env::promise_batch_then`).  Allocates a fresh identifier
bound to a new, empty batch dependent on the first handle, and logs
the request. -/
def promise_batch_then (promise_index : PromiseIndex) (account_id : AccountId)
    (s : HostState) : PromiseIndex × HostState :=
  (s.nextIndex,
    { nextIndex := s.nextIndex + 1
      batches := fun j => if j = s.nextIndex then [] else s.batches j
      log := s.log ++ [HostCall.batchThen promise_index account_id s.nextIndex] })

end env

/-- The message of the fatal abort raised when an action is appended to
a joint promise (`env::panic_str` argument in `Promise::action_index`). -/
def jointPanicMsg : String := "Cannot add action to a joint promise."

/-- The `PromiseSubtype` enum from the source: a handle is either a
`Single` batch or a `Joint` node, each carrying the host identifier. -/
inductive PromiseSubtype where
  | Single (x : PromiseIndex)
  | Joint (x : PromiseIndex)
  deriving DecidableEq, Repr

/-- `PromiseSubtype::index`: the underlying host identifier of either
variant. -/
def PromiseSubtype.index : PromiseSubtype → PromiseIndex
  | .Single x => x
  | .Joint x => x

/-- The `Promise` struct from the source.  The `RefCell<bool>` flag
`should_return` is a plain `Bool` here; interior mutation becomes
returning an updated handle. -/
structure Promise where
  index : PromiseSubtype
  should_return : Bool
  deriving DecidableEq, Repr

/-- `Promise::new`: open a fresh batch on the given account and wrap
its identifier in a `Single` handle with the return flag cleared. -/
def Promise.new (account_id : AccountId) (s : HostState) :
    Promise × HostState :=
  let r := env.promise_batch_create account_id s
  ({ index := PromiseSubtype.Single r.1, should_return := false }, r.2)

/-- `Promise::action_index`: the identifier actions are appended to;
fatally aborts on a `Joint` handle. -/
def Promise.action_index (p : Promise) : Except String PromiseIndex :=
  match p.index with
  | .Single x => Except.ok x
  | .Joint _ => Except.error jointPanicMsg

/-- `Promise::create_account`. -/
def Promise.create_account (p : Promise) (s : HostState) :
    Except String (Promise × HostState) :=
  match p.action_index with
  | .ok i => Except.ok (p, env.promise_batch_action_create_account i s)
  | .error e => Except.error e

/-- `Promise::deploy_contract`. -/
def Promise.deploy_contract (p : Promise) (code : List Nat) (s : HostState) :
    Except String (Promise × HostState) :=
  match p.action_index with
  | .ok i => Except.ok (p, env.promise_batch_action_deploy_contract i code s)
  | .error e => Except.error e

/-- `Promise::function_call`. -/
def Promise.function_call (p : Promise) (function_name : String)
    (arguments : List Nat) (amount : Balance) (gas : Gas) (s : HostState) :
    Except String (Promise × HostState) :=
  match p.action_index with
  | .ok i => Except.ok
      (p, env.promise_batch_action_function_call i function_name arguments
        amount gas s)
  | .error e => Except.error e

/-- `Promise::transfer`. -/
def Promise.transfer (p : Promise) (amount : Balance) (s : HostState) :
    Except String (Promise × HostState) :=
  match p.action_index with
  | .ok i => Except.ok (p, env.promise_batch_action_transfer i amount s)
  | .error e => Except.error e

/-- `Promise::stake`. -/
def Promise.stake (p : Promise) (amount : Balance) (public_key : PublicKey)
    (s : HostState) : Except String (Promise × HostState) :=
  match p.action_index with
  | .ok i => Except.ok (p, env.promise_batch_action_stake i amount public_key s)
  | .error e => Except.error e

/-- `Promise::add_full_access_key` (nonce fixed to 0 by the source). -/
def Promise.add_full_access_key (p : Promise) (public_key : PublicKey)
    (s : HostState) : Except String (Promise × HostState) :=
  match p.action_index with
  | .ok i => Except.ok
      (p, env.promise_batch_action_add_key_with_full_access i public_key 0 s)
  | .error e => Except.error e

/-- `Promise::add_full_access_key_with_nonce`. -/
def Promise.add_full_access_key_with_nonce (p : Promise)
    (public_key : PublicKey) (nonce : Nat) (s : HostState) :
    Except String (Promise × HostState) :=
  match p.action_index with
  | .ok i => Except.ok
      (p, env.promise_batch_action_add_key_with_full_access i public_key nonce s)
  | .error e => Except.error e

/-- `Promise::add_access_key` (nonce fixed to 0 by the source). -/
def Promise.add_access_key (p : Promise) (public_key : PublicKey)
    (allowance : Balance) (receiver_id : AccountId) (function_names : String)
    (s : HostState) : Except String (Promise × HostState) :=
  match p.action_index with
  | .ok i => Except.ok
      (p, env.promise_batch_action_add_key_with_function_call i public_key 0
        allowance receiver_id function_names s)
  | .error e => Except.error e

/-- `Promise::add_access_key_with_nonce`. -/
def Promise.add_access_key_with_nonce (p : Promise) (public_key : PublicKey)
    (allowance : Balance) (receiver_id : AccountId) (function_names : String)
    (nonce : Nat) (s : HostState) : Except String (Promise × HostState) :=
  match p.action_index with
  | .ok i => Except.ok
      (p, env.promise_batch_action_add_key_with_function_call i public_key
        nonce allowance receiver_id function_names s)
  | .error e => Except.error e

/-- `Promise::delete_key`. -/
def Promise.delete_key (p : Promise) (public_key : PublicKey) (s : HostState) :
    Except String (Promise × HostState) :=
  match p.action_index with
  | .ok i => Except.ok (p, env.promise_batch_action_delete_key i public_key s)
  | .error e => Except.error e

/-- `Promise::delete_account`. -/
def Promise.delete_account (p : Promise) (beneficiary_id : AccountId)
    (s : HostState) : Except String (Promise × HostState) :=
  match p.action_index with
  | .ok i => Except.ok
      (p, env.promise_batch_action_delete_account i beneficiary_id s)
  | .error e => Except.error e

/-- `Promise::and`: request a join of the two handles' identifiers and
wrap the returned id in a `Joint` handle with the flag cleared. -/
def Promise.and (p other : Promise) (s : HostState) : Promise × HostState :=
  let r := env.promise_and [p.index.index, other.index.index] s
  ({ index := PromiseSubtype.Joint r.1, should_return := false }, r.2)

/-- `Promise::then`: request a new batch on `other` chained after this
handle's identifier and wrap the returned id in a `Single` handle with
the flag cleared.  (`then` is reserved in Lean, hence the guillemets.) -/
def Promise.«then» (p : Promise) (other : AccountId) (s : HostState) :
    Promise × HostState :=
  let r := env.promise_batch_then p.index.index other s
  ({ index := PromiseSubtype.Single r.1, should_return := false }, r.2)

/-- `Promise::as_return`: set the return flag; nothing else changes and
no host request is made (the body touches no `env` function). -/
def Promise.as_return (p : Promise) (s : HostState) : Promise × HostState :=
  ({ p with should_return := true }, s)

/-- The serde data model value a serializer is asked to encode.  The
`Promise` implementation only ever calls `serializer.serialize_unit()`,
so the unit value — which carries zero payload bytes — is the one case
the source exercises; an opaque `data` case keeps the model of an
arbitrary wrapped value non-degenerate. -/
inductive SerdeValue where
  | unit
  | data (payload : List Nat)
  deriving DecidableEq, Repr

/-- `impl serde::Serialize for Promise`: set the return flag through
the `RefCell` and hand the serializer the unit value. -/
def Promise.serdeSerialize (p : Promise) : Promise × SerdeValue :=
  ({ p with should_return := true }, SerdeValue.unit)

/-- `impl borsh::BorshSerialize for Promise`: set the return flag
through the `RefCell` and write nothing to the writer (`w` is the byte
sink accumulated so far). -/
def Promise.borshSerialize (p : Promise) (w : List Nat) :
    Promise × List Nat :=
  ({ p with should_return := true }, w)

/-- The `PromiseOrValue<T>` enum from the source. -/
inductive PromiseOrValue (T : Type) where
  | Promise (p : NearPromise.Promise)
  | Value (x : T)
  deriving DecidableEq, Repr

/-- `impl From<Promise> for PromiseOrValue<T>`. -/
def PromiseOrValue.from {T : Type} (promise : NearPromise.Promise) :
    PromiseOrValue T :=
  PromiseOrValue.Promise promise

/-- `impl BorshSerialize for PromiseOrValue<T>`: a `Value` is
serialized exactly as the bare value (the abstract encoder `ser` plays
`T`'s `BorshSerialize`, appending its bytes to the writer); a
`Promise` delegates to the handle's serializer. -/
def PromiseOrValue.borshSerialize {T : Type} (ser : T → List Nat) :
    PromiseOrValue T → List Nat → PromiseOrValue T × List Nat
  | .Value x, w => (.Value x, w ++ ser x)
  | .Promise p, w =>
      let r := p.borshSerialize w
      (.Promise r.1, r.2)

/-- The derived `#[serde(untagged)]` `Serialize` for `PromiseOrValue`:
a `Value` is serialized exactly as the bare value (abstract encoder
`tser` plays `T`'s serde implementation); a `Promise` delegates to the
handle's serde implementation. -/
def PromiseOrValue.serdeSerialize {T : Type} (tser : T → SerdeValue) :
    PromiseOrValue T → PromiseOrValue T × SerdeValue
  | .Value x => (.Value x, tser x)
  | .Promise p =>
      let r := p.serdeSerialize
      (.Promise r.1, r.2)

/-- A borsh schema declaration (`borsh::schema::Declaration`). -/
abbrev Declaration := String

/-- The recursive-definitions map a schema implementation extends
(`HashMap<Declaration, Definition>`), modelled as an association list. -/
abbrev Definitions := List (Declaration × String)

/-- One implementation of the `BorshSchema` trait: its declaration and
its action on the recursive-definitions map. -/
structure BorshSchemaImpl where
  declaration : Declaration
  add_definitions_recursively : Definitions → Definitions

/-- `impl BorshSchema for Promise`: delegates both methods to the unit
type's implementation (the borsh crate's `<()>` instance, abstract
here as `unitSchema`). -/
def Promise.borshSchema (unitSchema : BorshSchemaImpl) : BorshSchemaImpl :=
  { declaration := unitSchema.declaration
    add_definitions_recursively := unitSchema.add_definitions_recursively }

/-- `impl BorshSchema for PromiseOrValue<T>`: delegates both methods to
`T`'s implementation (abstract here as `tSchema`). -/
def PromiseOrValue.borshSchema (tSchema : BorshSchemaImpl) :
    BorshSchemaImpl :=
  { declaration := tSchema.declaration
    add_definitions_recursively := tSchema.add_definitions_recursively }

/-- One call site of an action-append operation, with the arguments
passed there: one constructor per public action method of `Promise`. -/
inductive ActionCall where
  | create_account
  | deploy_contract (code : List Nat)
  | function_call (function_name : String) (arguments : List Nat)
      (amount : Balance) (gas : Gas)
  | transfer (amount : Balance)
  | stake (amount : Balance) (public_key : PublicKey)
  | add_full_access_key (public_key : PublicKey)
  | add_full_access_key_with_nonce (public_key : PublicKey) (nonce : Nat)
  | add_access_key (public_key : PublicKey) (allowance : Balance)
      (receiver_id : AccountId) (function_names : String)
  | add_access_key_with_nonce (public_key : PublicKey) (allowance : Balance)
      (receiver_id : AccountId) (function_names : String) (nonce : Nat)
  | delete_key (public_key : PublicKey)
  | delete_account (beneficiary_id : AccountId)
  deriving DecidableEq, Repr

/-- The action descriptor each method passes to the host, with the
parameters from the call site (nonce 0 where the source hardcodes it). -/
def toAction : ActionCall → Action
  | .create_account => .createAccount
  | .deploy_contract code => .deployContract code
  | .function_call n a amt g => .functionCall n a amt g
  | .transfer amt => .transfer amt
  | .stake amt pk => .stake amt pk
  | .add_full_access_key pk => .addKeyWithFullAccess pk 0
  | .add_full_access_key_with_nonce pk n => .addKeyWithFullAccess pk n
  | .add_access_key pk al rid fns => .addKeyWithFunctionCall pk 0 al rid fns
  | .add_access_key_with_nonce pk al rid fns n =>
      .addKeyWithFunctionCall pk n al rid fns
  | .delete_key pk => .deleteKey pk
  | .delete_account b => .deleteAccount b

/-- Dispatch one action-append call site to the corresponding method. -/
def Promise.runAction (p : Promise) (c : ActionCall) (s : HostState) :
    Except String (Promise × HostState) :=
  match c with
  | .create_account => p.create_account s
  | .deploy_contract code => p.deploy_contract code s
  | .function_call n a amt g => p.function_call n a amt g s
  | .transfer amt => p.transfer amt s
  | .stake amt pk => p.stake amt pk s
  | .add_full_access_key pk => p.add_full_access_key pk s
  | .add_full_access_key_with_nonce pk n =>
      p.add_full_access_key_with_nonce pk n s
  | .add_access_key pk al rid fns => p.add_access_key pk al rid fns s
  | .add_access_key_with_nonce pk al rid fns n =>
      p.add_access_key_with_nonce pk al rid fns n s
  | .delete_key pk => p.delete_key pk s
  | .delete_account b => p.delete_account b s

/-- Run a sequence of action-append call sites, threading the returned
handle into the next call as the source's chaining style does. -/
def Promise.runActions (p : Promise) (cs : List ActionCall) (s : HostState) :
    Except String (Promise × HostState) :=
  match cs with
  | [] => Except.ok (p, s)
  | c :: rest =>
    match p.runAction c s with
    | .ok r => r.1.runActions rest r.2
    | .error e => Except.error e

/-- The empty host state every execution starts from. -/
def s0 : HostState :=
  { nextIndex := 0, batches := fun _ => [], log := [] }

/-- Target identity `A` of the C3 scenario. -/
def accountA : AccountId := "alice"

/-- Target identity `B` of the C3 scenario. -/
def accountB : AccountId := "bob"

/-- Target identity `C` of the C3 scenario. -/
def accountC : AccountId := "carol"

/-- Target identity `D` of the C3 scenario. -/
def accountD : AccountId := "dave"

/-- The C3 scenario, in the source's evaluation order:
`Promise::new(A).create_account().transfer(1000)`, then `.then(B)`,
joined via `and` with `Promise::new(C).create_account()`, then
`.then(D)`. -/
def scenarioC3 : Except String (Promise × HostState) := do
  let rA := Promise.new accountA s0
  let rA ← rA.1.create_account rA.2
  let rA ← rA.1.transfer 1000 rA.2
  let rB := rA.1.«then» accountB rA.2
  let rC := Promise.new accountC rB.2
  let rC ← rC.1.create_account rC.2
  let rJ := rB.1.and rC.1 rC.2
  let rD := rJ.1.«then» accountD rJ.2
  pure rD

theorem runAction_joint_eq (i : PromiseIndex) (r : Bool) (c : ActionCall)
    (s : HostState) :
    Promise.runAction ⟨PromiseSubtype.Joint i, r⟩ c s =
      Except.error jointPanicMsg := by
  cases c <;> rfl

theorem runAction_single_eq (i : PromiseIndex) (r : Bool) (c : ActionCall)
    (s : HostState) :
    Promise.runAction ⟨PromiseSubtype.Single i, r⟩ c s =
      Except.ok (⟨PromiseSubtype.Single i, r⟩,
        env.hostAppendAction i (toAction c) s) := by
  cases c <;> rfl

/-- C1: every action-append operation invoked on a `Joint` handle
aborts fatally with the message "Cannot add action to a joint
promise.", for every action kind, every identifier, every prior flag
value and every host state; on a `Single` handle every such operation
succeeds, so the abort branch is unreachable there. -/
theorem joint_append_aborts_single_never_aborts :
    (∀ (c : ActionCall) (i : PromiseIndex) (r : Bool) (s : HostState),
      Promise.runAction ⟨PromiseSubtype.Joint i, r⟩ c s =
        Except.error "Cannot add action to a joint promise.") ∧
    (∀ (c : ActionCall) (i : PromiseIndex) (r : Bool) (s : HostState),
      ∃ q t, Promise.runAction ⟨PromiseSubtype.Single i, r⟩ c s =
        Except.ok (q, t)) := by
  constructor
  · intro c i r s
    exact runAction_joint_eq i r c s
  · intro c i r s
    exact ⟨_, _, runAction_single_eq i r c s⟩

/-- C2: serializing a handle — via borsh, via serde, or via the
`Promise` variant of `PromiseOrValue` under either interface — always
sets `should_return` to `true` whatever its prior value, and encodes
zero payload bytes: the borsh writer is returned unchanged and the
serde serializer is handed exactly the unit value, which carries no
payload. -/
theorem serialize_marks_return_and_writes_nothing :
    (∀ (p : Promise) (w : List Nat),
      p.borshSerialize w = ({ p with should_return := true }, w)) ∧
    (∀ p : Promise,
      p.serdeSerialize = ({ p with should_return := true }, SerdeValue.unit)) ∧
    (∀ (T : Type) (ser : T → List Nat) (p : Promise) (w : List Nat),
      PromiseOrValue.borshSerialize ser (PromiseOrValue.Promise p) w =
        (PromiseOrValue.Promise { p with should_return := true }, w)) ∧
    (∀ (T : Type) (tser : T → SerdeValue) (p : Promise),
      PromiseOrValue.serdeSerialize tser
          (PromiseOrValue.Promise (T := T) p) =
        (PromiseOrValue.Promise { p with should_return := true },
          SerdeValue.unit)) :=
  ⟨fun _ _ => rfl, fun _ => rfl, fun _ _ _ _ => rfl, fun _ _ _ => rfl⟩

/-- C3: building `Promise::new(A).create_account().transfer(1000)`,
then `.then(B)`, joining with `Promise::new(C).create_account()` via
`and`, then `.then(D)`, issues the host requests in exactly this
order — open-batch(A)→0, append(create_account) to 0,
append(transfer 1000) to 0, chain(0→B)→1, open-batch(C)→2,
append(create_account) to 2, join([1,2])→3, chain(3→D)→4 — with each
returned identifier threaded into the dependent request, and ends in a
`Single` handle on identifier 4. -/
theorem scenario_trace :
    Except.map (fun r => (r.1, r.2.log, r.2.nextIndex)) scenarioC3 =
      Except.ok ((⟨PromiseSubtype.Single 4, false⟩ : Promise),
        [HostCall.batchCreate accountA 0,
         HostCall.batchAction 0 Action.createAccount,
         HostCall.batchAction 0 (Action.transfer 1000),
         HostCall.batchThen 0 accountB 1,
         HostCall.batchCreate accountC 2,
         HostCall.batchAction 2 Action.createAccount,
         HostCall.promiseAnd [1, 2] 3,
         HostCall.batchThen 3 accountD 4], 5) := rfl

/-- C4: running any sequence of action-append call sites on a `Single`
handle succeeds, returns the very same handle after every call, leaves
the batch of its identifier holding exactly the actions of those calls
in call order with the parameters passed at each site, touches no
other batch, logs exactly the corresponding append requests in order,
and allocates no identifier. -/
theorem single_batch_collects_actions (cs : List ActionCall) :
    ∀ (i : PromiseIndex) (r : Bool) (s : HostState),
    ∃ t, Promise.runActions ⟨PromiseSubtype.Single i, r⟩ cs s =
        Except.ok (⟨PromiseSubtype.Single i, r⟩, t) ∧
      t.batches = (fun j =>
        if j = i then s.batches i ++ cs.map toAction else s.batches j) ∧
      t.log = s.log ++ cs.map (fun c => HostCall.batchAction i (toAction c)) ∧
      t.nextIndex = s.nextIndex := by
  induction cs with
  | nil =>
    intro i r s
    refine ⟨s, rfl, ?_, by simp, rfl⟩
    funext j
    by_cases hj : j = i <;> simp [hj]
  | cons c rest ih =>
    intro i r s
    obtain ⟨t, h1, h2, h3, h4⟩ := ih i r (env.hostAppendAction i (toAction c) s)
    refine ⟨t, ?_, ?_, ?_, ?_⟩
    · simp only [Promise.runActions, runAction_single_eq]
      exact h1
    · rw [h2]
      funext j
      by_cases hj : j = i <;>
        simp [env.hostAppendAction, hj, List.append_assoc]
    · rw [h3]
      simp [env.hostAppendAction, List.append_assoc]
    · rw [h4]
      rfl

/-- C5: `a.and(b)` issues exactly one join request over the two
handles' underlying identifiers, returns a `Joint` handle carrying
precisely the identifier that request returned, and — given that both
operands' identifiers were previously allocated by the host, so the
returned identifier is fresh — that identifier differs from both
operands'. -/
theorem and_yields_fresh_joint (a b : Promise) (s : HostState)
    (ha : a.index.index < s.nextIndex) (hb : b.index.index < s.nextIndex) :
    (a.and b s).1 = ⟨PromiseSubtype.Joint s.nextIndex, false⟩ ∧
    (a.and b s).2.log = s.log ++
      [HostCall.promiseAnd [a.index.index, b.index.index] s.nextIndex] ∧
    (a.and b s).2.nextIndex = s.nextIndex + 1 ∧
    s.nextIndex ≠ a.index.index ∧ s.nextIndex ≠ b.index.index := by
  exact ⟨rfl, rfl, rfl, Nat.ne_of_gt ha, Nat.ne_of_gt hb⟩

/-- Witness for C5 at concrete handles on identifiers 0 and 1 in a
host state whose next fresh identifier is 2. -/
theorem and_yields_fresh_joint_witness :
    ((0 : Nat) < 2 ∧ (1 : Nat) < 2) ∧
    ((Promise.and ⟨PromiseSubtype.Single 0, false⟩
        ⟨PromiseSubtype.Single 1, true⟩
        { nextIndex := 2, batches := fun _ => [], log := [] }).1 =
      ⟨PromiseSubtype.Joint 2, false⟩ ∧
    (Promise.and ⟨PromiseSubtype.Single 0, false⟩
        ⟨PromiseSubtype.Single 1, true⟩
        { nextIndex := 2, batches := fun _ => [], log := [] }).2.log =
      [] ++ [HostCall.promiseAnd [0, 1] 2] ∧
    (Promise.and ⟨PromiseSubtype.Single 0, false⟩
        ⟨PromiseSubtype.Single 1, true⟩
        { nextIndex := 2, batches := fun _ => [], log := [] }).2.nextIndex =
      2 + 1 ∧
    (2 : Nat) ≠ 0 ∧ (2 : Nat) ≠ 1) :=
  ⟨⟨by decide, by decide⟩,
    and_yields_fresh_joint ⟨PromiseSubtype.Single 0, false⟩
      ⟨PromiseSubtype.Single 1, true⟩
      { nextIndex := 2, batches := fun _ => [], log := [] }
      (by decide) (by decide)⟩

/-- C6: `p.then(t)` returns a `Single` handle carrying exactly the
identifier the host returned for chaining a new batch on `t` after
`p`'s identifier, that batch is initially empty, exactly one chain
request is logged, and — given that `p`'s identifier was previously
allocated, so the returned identifier is fresh — the new identifier
differs from `p`'s. -/
theorem then_yields_fresh_empty_single (p : Promise) (t : AccountId)
    (s : HostState) (h : p.index.index < s.nextIndex) :
    (p.«then» t s).1 = ⟨PromiseSubtype.Single s.nextIndex, false⟩ ∧
    (p.«then» t s).2.batches s.nextIndex = [] ∧
    (p.«then» t s).2.log = s.log ++
      [HostCall.batchThen p.index.index t s.nextIndex] ∧
    s.nextIndex ≠ p.index.index := by
  refine ⟨rfl, ?_, rfl, Nat.ne_of_gt h⟩
  simp [Promise.«then», env.promise_batch_then]

/-- Witness for C6 at a concrete handle on identifier 0 in a host
state whose next fresh identifier is 1. -/
theorem then_yields_fresh_empty_single_witness :
    ((0 : Nat) < 1) ∧
    ((Promise.«then» ⟨PromiseSubtype.Joint 0, true⟩ "bob"
        { nextIndex := 1, batches := fun _ => [], log := [] }).1 =
      ⟨PromiseSubtype.Single 1, false⟩ ∧
    (Promise.«then» ⟨PromiseSubtype.Joint 0, true⟩ "bob"
        { nextIndex := 1, batches := fun _ => [], log := [] }).2.batches 1 =
      [] ∧
    (Promise.«then» ⟨PromiseSubtype.Joint 0, true⟩ "bob"
        { nextIndex := 1, batches := fun _ => [], log := [] }).2.log =
      [] ++ [HostCall.batchThen 0 "bob" 1] ∧
    (1 : Nat) ≠ 0) :=
  ⟨by decide,
    then_yields_fresh_empty_single ⟨PromiseSubtype.Joint 0, true⟩ "bob"
      { nextIndex := 1, batches := fun _ => [], log := [] } (by decide)⟩

/-- C7: serializing the `Value` variant of `PromiseOrValue` produces
output identical to serializing the bare contained value with the same
serializer — the borsh implementation appends exactly the bare value's
bytes, and the untagged serde implementation hands the serializer
exactly the bare value's serde form — for every wrapped type, encoder
and value. -/
theorem value_serializes_as_bare_value :
    (∀ (T : Type) (ser : T → List Nat) (x : T) (w : List Nat),
      PromiseOrValue.borshSerialize ser (PromiseOrValue.Value x) w =
        (PromiseOrValue.Value x, w ++ ser x)) ∧
    (∀ (T : Type) (tser : T → SerdeValue) (x : T),
      PromiseOrValue.serdeSerialize tser (PromiseOrValue.Value x) =
        (PromiseOrValue.Value x, tser x)) :=
  ⟨fun _ _ _ _ => rfl, fun _ _ _ => rfl⟩

/-- C8: `as_return` sets `should_return` to `true`, keeps the variant
and underlying identifier unchanged, and leaves the host state — its
log included — entirely untouched, so no request reaches the host
scheduler. -/
theorem as_return_sets_flag_and_nothing_else (p : Promise) (s : HostState) :
    (p.as_return s).1.should_return = true ∧
    (p.as_return s).1.index = p.index ∧
    (p.as_return s).2 = s :=
  ⟨rfl, rfl, rfl⟩

/-- C9: the static borsh schema of `PromiseOrValue<T>` is identical to
`T`'s — same declaration and the same action on the recursive
definitions map — so the handle alternative never appears in the
static shape description. -/
theorem pov_schema_is_value_schema (tSchema : BorshSchemaImpl) :
    PromiseOrValue.borshSchema tSchema = tSchema ∧
    (PromiseOrValue.borshSchema tSchema).declaration = tSchema.declaration ∧
    ∀ d, (PromiseOrValue.borshSchema tSchema).add_definitions_recursively d =
      tSchema.add_definitions_recursively d :=
  ⟨rfl, rfl, fun _ => rfl⟩

/-- C10: the static borsh schema of a bare `Promise` handle is exactly
the unit type's — same declaration and the same action on the
recursive definitions map — so a call returning a bare handle is
statically described as returning nothing. -/
theorem promise_schema_is_unit_schema (unitSchema : BorshSchemaImpl) :
    Promise.borshSchema unitSchema = unitSchema ∧
    (Promise.borshSchema unitSchema).declaration = unitSchema.declaration ∧
    ∀ d, (Promise.borshSchema unitSchema).add_definitions_recursively d =
      unitSchema.add_definitions_recursively d :=
  ⟨rfl, rfl, fun _ => rfl⟩

end NearPromise
